import Mathlib

/-!
# offrestorecon: offline SELinux relabelling

A shallow embedding of `offrestorecon.c`.  C strings are lists of characters
(`Str`), the operating system is an explicit environment `Env` (what `lstat`,
`opendir`, `matchpathcon`, `setxattr`, ... answer), and the process is an
explicit state `Proc` (extended attributes, `errno`, the two output streams,
the static variables of `lsdir`, and observation logs of the calls made).
Every C function becomes a state-passing function returning a `Run`.
-/

namespace Offrestorecon

/-- A C string, without its terminating NUL. -/
abbrev Str := List Char

/-- The string terminator. -/
def NUL : Char := Char.ofNat 0

/-- The line feed written by the format strings. -/
def NL : Char := Char.ofNat 10

/-- The macro `MAX_CONTEXT_SIZE`, 255. -/
def MAX_CONTEXT_SIZE : Nat := 255

/-- The macro `DEFAULT_LABEL`, the fallback literal. -/
def DEFAULT_LABEL : Str := String.toList "system_u:object_r:unlabeled_t"

/-! ## The environment -/

/-- What `matchpathcon` can answer: a context, no matching rule, or a failure
of the policy database. -/
inductive Lookup where
  | Found (con : Str)
  | NoMatch
  | Error (kind : Nat)
  deriving DecidableEq, Repr

/-- Return code of `matchpathcon`: `0` on success, `-1` otherwise. -/
def Lookup.rc : Lookup → Int
  | Lookup.Found _ => 0
  | Lookup.NoMatch => -1
  | Lookup.Error _ => -1

/-- The string stored through `conptr` by a successful `matchpathcon`. -/
def Lookup.con : Lookup → Str
  | Lookup.Found c => c
  | Lookup.NoMatch => []
  | Lookup.Error _ => []

/-- The operating system and libraries, as seen by the program.
* `lstat p`: `st_mode` of `p` itself (links not followed), or an `errno`;
* `follow p`: the object that a link-following system call on `p` reaches
  (`p` itself unless the final component of `p` is a symbolic link);
* `setxattr o`: `none` when writing `security.selinux` on object `o`
  succeeds, `some errno` when it fails;
* `matchpathcon p mode`: the answer of the policy oracle;
* `opendir p`: the entry names `readdir` will yield (with `.` and `..`), or
  an `errno` when the directory cannot be opened;
* `ioprio_set`, `setpriority`: `none` on success, `some errno` on failure. -/
structure Env where
  lstat : Str → Except Nat Nat
  follow : Str → Str
  setxattr : Str → Option Nat
  matchpathcon : Str → Nat → Lookup
  opendir : Str → Except Nat (List Str)
  strerror : Nat → Str
  ioprio_set : Nat → Nat → Nat → Option Nat
  setpriority : Nat → Nat → Nat → Option Nat

/-! ## The process state -/

/-- State of the process.  `xattr` is the `security.selinux` attribute of
each object; `oldpath` and `dp` are the static variables of `lsdir` (`dp` is
the open directory stream: the entries not yet read).  `calls`, `writes` and
`ioprio` are observation logs: the paths handed to `restorecon`, the
`(path, buffer)` pairs handed to `setfilecon`, and the argument triples
handed to `ioprio_set`. -/
structure Proc where
  xattr : Str → Option Str
  errno : Nat
  stdout : List Str
  stderr : List Str
  oldpath : Option Str
  dp : Option (List Str)
  calls : List Str
  writes : List (Str × Str)
  ioprio : List (Nat × Nat × Nat)

/-- A fresh process: nothing printed, statics zeroed, given attributes. -/
def Proc.init (xattr : Str → Option Str) : Proc :=
  { xattr := xattr, errno := 0, stdout := [], stderr := [], oldpath := none,
    dp := none, calls := [], writes := [], ioprio := [] }

/-- Outcome of running a piece of the program: it returned a value, it
reached undefined behaviour, it called `exit`, or the model ran out of
fuel.  Each outcome carries the state reached. -/
inductive Run (α : Type) where
  | ret (a : α) (s : Proc)
  | undef (s : Proc)
  | exited (code : Int) (s : Proc)
  | stuck (s : Proc)

/-- The state reached by a run, whatever its outcome. -/
def Run.proc {α : Type} : Run α → Proc
  | Run.ret _ s => s
  | Run.undef s => s
  | Run.exited _ s => s
  | Run.stuck s => s

/-- The value returned, when the run returned. -/
def Run.val {α : Type} : Run α → Option α
  | Run.ret a _ => some a
  | Run.undef _ => none
  | Run.exited _ _ => none
  | Run.stuck _ => none

/-- Sequencing: continue with `f` when the run returned, stop otherwise. -/
def Run.bind {α β : Type} (r : Run α) (f : α → Proc → Run β) : Run β :=
  match r with
  | Run.ret a s => f a s
  | Run.undef s => Run.undef s
  | Run.exited c s => Run.exited c s
  | Run.stuck s => Run.stuck s

/-! ## C library pieces -/

/-- The call `strncpy(dst, src, n)`: the `n` bytes left in `dst`.  The first `n`
bytes of `src` are copied; when `src` is shorter the rest is filled with
NUL; when it is not, no NUL is written. -/
def strncpy (src : Str) (n : Nat) : Str :=
  src.take n ++ List.replicate (n - src.length) NUL

/-- Whether a character array holds a terminated string. -/
def terminated (buf : Str) : Bool := buf.contains NUL

/-- The string read from a character array: the bytes before the first
NUL. -/
def cstring (buf : Str) : Str := buf.takeWhile (fun c => c != NUL)

/-- The file type masks `S_IFMT`, `S_IFDIR`, `S_IFLNK`, `S_IFREG` of
`sys/stat.h`. -/
def S_IFMT : Nat := 0o170000
def S_IFDIR : Nat := 0o040000
def S_IFLNK : Nat := 0o120000
def S_IFREG : Nat := 0o100000

/-- The test `S_ISDIR(m)`. -/
def S_ISDIR (m : Int) : Bool := (m.toNat &&& S_IFMT) == S_IFDIR

/-- The test `S_ISLNK(m)`. -/
def S_ISLNK (m : Int) : Bool := (m.toNat &&& S_IFMT) == S_IFLNK

/-- The call `setfilecon(path, context)` of libselinux: `setxattr` of
`security.selinux` on `path`, which follows a symbolic link in the final
component (the variant that does not is `lsetfilecon`).  `buf` is the character array passed; reading it as a string is
undefined when it holds no NUL. -/
def setfilecon (env : Env) (s : Proc) (path : Str) (buf : Str) : Run Int :=
  let s1 := { s with writes := s.writes ++ [(path, buf)] }
  if terminated buf then
    match env.setxattr (env.follow path) with
    | none =>
      Run.ret 0 { s1 with xattr := Function.update s1.xattr (env.follow path) (some (cstring buf)) }
    | some e => Run.ret (-1) { s1 with errno := e }
  else Run.undef s1

/-! ## The program -/

/-- Function `get_mode`: `st_mode` from `lstat`, or `-1`. -/
def get_mode (env : Env) (s : Proc) (path : Str) : Int × Proc :=
  match env.lstat path with
  | Except.ok st_mode => ((st_mode : Int), s)
  | Except.error e => (-1, { s with errno := e })

/-- The line `Warning: no default context for %s\n`. -/
def warning_line (path : Str) : Str :=
  String.toList "Warning: no default context for " ++ path ++ [NL]

/-- The line `Error: %s for %s\n`. -/
def error_line (msg path : Str) : Str :=
  String.toList "Error: " ++ msg ++ String.toList " for " ++ path ++ [NL]

/-- The line `%s: %s\n`. -/
def verbose_line (path context : Str) : Str :=
  path ++ String.toList ": " ++ context ++ [NL]

/-- The end of `restorecon`: the error line when `mode < 0`, then
`return mode`. -/
def restorecon_end (env : Env) (s : Proc) (path : Str) (mode : Int) : Run Int :=
  if mode < 0 then
    Run.ret mode { s with stderr := s.stderr ++ [error_line (env.strerror s.errno) path] }
  else Run.ret mode s

/-- The array `context` of `restorecon` once filled: `DEFAULT_LABEL` when
`matchpathcon` does not return 0, the string it stored otherwise, copied by
`strncpy(context, ..., sizeof(context))`. -/
def context_of (env : Env) (path : Str) (mode : Nat) : Str :=
  if (env.matchpathcon path mode).rc ≠ 0 then strncpy DEFAULT_LABEL MAX_CONTEXT_SIZE
  else strncpy (env.matchpathcon path mode).con MAX_CONTEXT_SIZE

/-- Function `restorecon(path, verbose)`. -/
def restorecon (env : Env) (s : Proc) (path : Str) (verbose : Bool) : Run Int :=
  let s0 := { s with calls := s.calls ++ [path] }
  match get_mode env s0 path with
  | (mode, s1) =>
    if 0 < mode then
      let context := context_of env path mode.toNat
      let s2 :=
        if (env.matchpathcon path mode.toNat).rc ≠ 0 then
          { s1 with stderr := s1.stderr ++ [warning_line path] }
        else s1
      (setfilecon env s2 path context).bind fun rc s3 =>
        if rc = 0 then
          if verbose then
            restorecon_end env
              { s3 with stdout := s3.stdout ++ [verbose_line path (cstring context)] } path mode
          else restorecon_end env s3 path mode
        else restorecon_end env s3 path (-1)
    else restorecon_end env s1 path mode

/-- Modelled from the spec: `queue.h` is not among the sources.  A queue
(`FQ *`) is an ordered sequence of paths, the null pointer being the empty
sequence; `create_queue p` is the one-element queue holding a copy of `p`. -/
def create_queue (path : Str) : List Str := [path]

/-- Modelled from the spec: `queue.h` is not among the sources.
`append_queue(tail, p)` links a copy of `p` after the last node and returns
the new last node; on the sequence this is appending at the end. -/
def append_queue (q : List Str) (path : Str) : List Str := q ++ [path]

/-- The path built by `snprintf(ret, sz, (fl)?"%s%s":"%s/%s", oldpath, d_name)`
with `fl = oldpath[strlen(oldpath)-1] == '/'`. -/
def child_path (oldpath d_name : Str) : Str :=
  if oldpath.getLast? = some '/' then oldpath ++ d_name
  else oldpath ++ '/' :: d_name

/-- The `while((d = readdir(dp)))` loop of `lsdir`: skips `.` and `..`;
gives the first other entry, if any, and the entries left in the stream. -/
def readdir_loop : List Str → Option Str × List Str
  | [] => (none, [])
  | d :: rest =>
    if d = String.toList "." ∨ d = String.toList ".." then readdir_loop rest
    else (some d, rest)

/-- The first half of `lsdir`: when `path` differs from the remembered
`oldpath` (or none is remembered), the open stream is closed, `path` is
remembered and opened.  The result of `opendir` is not tested: on failure
`dp` is null. -/
def lsdir_open (env : Env) (s : Proc) (path : Str) : Proc :=
  if s.oldpath = none ∨ s.oldpath ≠ some path then
    match env.opendir path with
    | Except.ok entries => { s with oldpath := some path, dp := some entries }
    | Except.error e => { s with oldpath := some path, dp := none, errno := e }
  else s

/-- The second half of `lsdir`: the `readdir` loop on `dp`, undefined when
`dp` is null; the child path for the first entry other than `.` and `..`, or,
at the end of the stream, null with `dp` and `oldpath` reset. -/
def lsdir_read (s : Proc) (path : Str) : Run (Option Str) :=
  match s.dp with
  | none => Run.undef s
  | some stream =>
    match readdir_loop stream with
    | (some d_name, rest) =>
      Run.ret (some (child_path path d_name)) { s with dp := some rest }
    | (none, _) => Run.ret none { s with dp := none, oldpath := none }

/-- Function `lsdir(path)`: the next child of `path`, or null when there is none
left.  After the first half `oldpath` is `path`, which is what the child path
is built from. -/
def lsdir (env : Env) (s : Proc) (path : Str) : Run (Option Str) :=
  lsdir_read (lsdir_open env s path) path

/-- The loop `while((first = lsdir(q->path))) q2 = append_queue(q2, first);`
of `dircon`.  The fuel bounds the number of `lsdir` calls. -/
def lsdir_rest (env : Env) : Nat → Proc → Str → List Str → Run (List Str)
  | 0, s, _, _ => Run.stuck s
  | fuel + 1, s, path, next =>
    (lsdir env s path).bind fun first s1 =>
      match first with
      | some child => lsdir_rest env fuel s1 path (append_queue next child)
      | none => Run.ret next s1

/-- Number of entries left in the open directory stream. -/
def Proc.pending (s : Proc) : Nat :=
  match s.dp with
  | none => 0
  | some stream => stream.length

/-- The block `if(mode > 0) { ... }` in the inner loop of `dircon`, for the
path just handed to `restorecon` and the `mode` it returned: when the mode
is positive and that of a directory, the children are read by `lsdir`; the
first one starts the next level only when that level is still empty
(`if(!next)`), the others are appended.  The `lsdir` loop gets as many steps
as there are entries left in the stream, plus one. -/
def dircon_children (env : Env) (s : Proc) (path : Str) (mode : Int) (next : List Str) :
    Run (List Str) :=
  if 0 < mode then
    if !S_ISLNK mode && S_ISDIR mode then
      (lsdir env s path).bind fun first s1 =>
        match first with
        | some child =>
          lsdir_rest env (s1.pending + 1) s1 path
            (if next = [] then create_queue child else next)
        | none => Run.ret next s1
    else Run.ret next s
  else Run.ret next s

/-- The inner loop `while(q)` of `dircon` over the current level, with the
next level `next` and the running `count`: `restorecon`, `count++`, the
children block, `q = q->next`. -/
def dircon_level (env : Env) (verbose : Bool) :
    Proc → List Str → List Str → Int → Run (List Str × Int)
  | s, [], next, count => Run.ret (next, count) s
  | s, path :: q, next, count =>
    (restorecon env s path verbose).bind fun mode s1 =>
      (dircon_children env s1 path mode next).bind fun next1 s2 =>
        dircon_level env verbose s2 q next1 (count + 1)

/-- The outer loop `while(root)` of `dircon`: one level per iteration, the
next level becoming the current one.  The fuel bounds the number of
levels. -/
def dircon_loop (env : Env) (verbose : Bool) : Nat → Proc → List Str → Int → Run Int
  | _, s, [], count => Run.ret count s
  | 0, s, _ :: _, _ => Run.stuck s
  | fuel + 1, s, path :: q, count =>
    (dircon_level env verbose s (path :: q) [] count).bind fun r s1 =>
      dircon_loop env verbose fuel s1 r.1 r.2

/-- Function `dircon(path, verbose)`: the walk from the one-element queue
holding `path`, with `count = 0`. -/
def dircon (env : Env) (fuel : Nat) (s : Proc) (path : Str) (verbose : Bool) : Run Int :=
  dircon_loop env verbose fuel s (create_queue path) 0

/-- Function `restore(path, recurse, verbose)`:
`(recurse)?dircon(path, verbose):restorecon(path, verbose)`. -/
def restore (env : Env) (fuel : Nat) (s : Proc) (path : Str) (recurse verbose : Bool) :
    Run Int :=
  if recurse then dircon env fuel s path verbose else restorecon env s path verbose

/-- The line `Total: %d\n`. -/
def total_line (d : Int) : Str :=
  String.toList "Total: " ++ String.toList (toString d) ++ [NL]

/-- The `do ... while(optind < argc)` loop of `main` over the path
arguments: `restore`, then the `Total:` line. -/
def main_loop (env : Env) (fuel : Nat) (recurse verbose : Bool) : Proc → List Str → Run Int
  | s, [] => Run.ret 0 s
  | s, path :: paths =>
    (restore env fuel s path recurse verbose).bind fun d s1 =>
      main_loop env fuel recurse verbose { s1 with stdout := s1.stdout ++ [total_line d] } paths

/-- The `IOPRIO_CLASS_*` enumeration. -/
def IOPRIO_CLASS_NONE : Nat := 0
def IOPRIO_CLASS_RT : Nat := 1
def IOPRIO_CLASS_BE : Nat := 2
def IOPRIO_CLASS_IDLE : Nat := 3

/-- The `IOPRIO_WHO_*` enumeration. -/
def IOPRIO_WHO_PROCESS : Nat := 1
def IOPRIO_WHO_PGRP : Nat := 2
def IOPRIO_WHO_USER : Nat := 3

/-- The macro `IOPRIO_CLASS_SHIFT`, 13. -/
def IOPRIO_CLASS_SHIFT : Nat := 13

/-- The constant `PRIO_PROCESS` of `sys/resource.h`. -/
def PRIO_PROCESS : Nat := 0

/-- The third argument of the `ioprio_set` call in `set_idle`:
`IOPRIO_CLASS_IDLE|IOPRIO_CLASS_BE<<IOPRIO_CLASS_SHIFT`, the shift binding
tighter than the bitwise or. -/
def set_idle_ioprio : Nat :=
  IOPRIO_CLASS_IDLE ||| (IOPRIO_CLASS_BE <<< IOPRIO_CLASS_SHIFT)

/-- Function `set_idle()`: `ioprio_set`, fatal when it fails, then
`setpriority(PRIO_PROCESS, 0, 19)`. -/
def set_idle (env : Env) (s : Proc) : Run Unit :=
  let s1 := { s with ioprio := s.ioprio ++ [(IOPRIO_WHO_PROCESS, 0, set_idle_ioprio)] }
  match env.ioprio_set IOPRIO_WHO_PROCESS 0 set_idle_ioprio with
  | some e =>
    Run.exited (-1)
      { s1 with errno := e,
                stderr := s1.stderr ++ [String.toList "ioprio_set(): " ++ env.strerror e ++ [NL]] }
  | none =>
    match env.setpriority PRIO_PROCESS 0 19 with
    | some e =>
      Run.ret ()
        { s1 with errno := e,
                  stderr := s1.stderr ++ [String.toList "setpriority(): " ++ env.strerror e ++ [NL]] }
    | none => Run.ret () s1

/-! ## Path depth -/

/-- Number of components of a path: the maximal runs of characters other
than `/`.  The flag tells whether the previous character was part of a
component. -/
def components : Bool → Str → Nat
  | _, [] => 0
  | inside, c :: cs =>
    if c = '/' then components false cs
    else (if inside then 0 else 1) + components true cs

/-- Depth of a path: its number of components. -/
def depth (p : Str) : Nat := components false p

/-- A directory entry name as `readdir` yields them: not empty, and without
`/`. -/
def EntryName (n : Str) : Prop := n ≠ [] ∧ '/' ∉ n

instance : DecidablePred EntryName := fun n => by
  unfold EntryName
  infer_instance

/-- Every directory stream of the environment holds entry names only. -/
def EntryNames (env : Env) : Prop :=
  ∀ p entries, env.opendir p = Except.ok entries → ∀ n ∈ entries, EntryName n

/-- What `restorecon` prints on standard error before the write: the warning
line when `matchpathcon` does not return 0. -/
def warning_lines (env : Env) (path : Str) (mode : Nat) : List Str :=
  if (env.matchpathcon path mode).rc ≠ 0 then [warning_line path] else []

/-- What `restorecon` prints on standard output for a path: the verbose line,
when asked for and the label was written. -/
def restorecon_stdout (env : Env) (path : Str) (verbose : Bool) : List Str :=
  match env.lstat path with
  | Except.ok m =>
    if 0 < m ∧ terminated (context_of env path m) ∧ env.setxattr (env.follow path) = none
        ∧ verbose then
      [verbose_line path (cstring (context_of env path m))]
    else []
  | Except.error _ => []

/-- Whether the last character read lies inside a component, after reading
`p` from a position where that was `b`. -/
def inside_after : Bool → Str → Bool
  | b, [] => b
  | _, c :: cs => inside_after (c != '/') cs

/-- What a run satisfies: `I` holds of the state reached, whatever the
outcome, and `Q` of the value and state when the run returned. -/
def Run.Sat {α : Type} (r : Run α) (I : Proc → Prop) (Q : α → Proc → Prop) : Prop :=
  I r.proc ∧ ∀ a s, r = Run.ret a s → Q a s

/-- The state of a walk in which no path deeper than `k` has been visited
yet: the open directory stream holds entry names, the paths handed to
`restorecon` so far are in order of depth and none is deeper than `k`, and
standard output is `out0` followed by what `restorecon` printed for each of
them, in that order. -/
def Walked (env : Env) (v : Bool) (out0 : List Str) (k : Nat) (s : Proc) : Prop :=
  (∀ stream, s.dp = some stream → ∀ n ∈ stream, EntryName n)
  ∧ List.Pairwise (fun a b => depth a ≤ depth b) s.calls
  ∧ (∀ c ∈ s.calls, depth c ≤ k)
  ∧ s.stdout = out0 ++ s.calls.flatMap (fun p => restorecon_stdout env p v)

/-- A run that returned, with a value and state satisfying `Q`. -/
def Run.Returns {α : Type} (r : Run α) (Q : α → Proc → Prop) : Prop :=
  ∃ a s, r = Run.ret a s ∧ Q a s

/-- An environment in which a walk goes through: directory streams hold entry
names, the oracle answers less than 255 bytes, every directory can be opened,
and no directory at depth `N` or more has an entry besides `.` and `..`. -/
structure Tame (env : Env) (N : Nat) : Prop where
  names : EntryNames env
  short : ∀ p m, (env.matchpathcon p m).con.length < MAX_CONTEXT_SIZE
  opens : ∀ p (m : Nat), env.lstat p = Except.ok m → S_ISDIR (m : Int) = true →
    ∃ entries, env.opendir p = Except.ok entries
  bounded : ∀ p entries, N ≤ depth p → env.opendir p = Except.ok entries →
    ∀ n ∈ entries, n = String.toList "." ∨ n = String.toList ".."

/-! ## Scenarios -/

deriving instance DecidableEq for Except

/-- A context the test oracle answers. -/
def tmp_t : Str := String.toList "system_u:object_r:tmp_t:s0"

/-- An environment with no file at all, an oracle that matches everything to
`tmp_t`, and system calls that succeed. -/
def emptyEnv : Env :=
  { lstat := fun _ => Except.error 2
    follow := fun p => p
    setxattr := fun _ => none
    matchpathcon := fun _ _ => Lookup.Found tmp_t
    opendir := fun _ => Except.error 2
    strerror := fun e => if e = 13 then String.toList "Permission denied"
                         else String.toList "No such file or directory"
    ioprio_set := fun _ _ _ => none
    setpriority := fun _ _ _ => none }

/-- No object carries a label. -/
def noLabels : Str → Option Str := fun _ => none

/-- Scenario S1: the regular file `/tmp/t1/f`, mode `0100644`. -/
def envS1 : Env :=
  { emptyEnv with
    lstat := fun p =>
      if p = String.toList "/tmp/t1/f" then Except.ok 0o100644 else Except.error 2 }

/-- Scenario S3: the regular file `/tmp/t1/x`, for which the oracle has no
rule. -/
def envS3 : Env :=
  { emptyEnv with
    lstat := fun p =>
      if p = String.toList "/tmp/t1/x" then Except.ok 0o100644 else Except.error 2
    matchpathcon := fun _ _ => Lookup.NoMatch }

/-- Scenario S5: the directory `/tmp/t3` holding the regular file `a` and the
symbolic link `b` to `/etc/passwd`. -/
def envLink : Env :=
  { emptyEnv with
    lstat := fun p =>
      if p = String.toList "/tmp/t3" then Except.ok 0o040755
      else if p = String.toList "/tmp/t3/b" then Except.ok 0o120777
      else if p = String.toList "/tmp/t3/a" ∨ p = String.toList "/etc/passwd" then
        Except.ok 0o100644
      else Except.error 2
    follow := fun p =>
      if p = String.toList "/tmp/t3/b" then String.toList "/etc/passwd" else p
    opendir := fun p =>
      if p = String.toList "/tmp/t3" then
        Except.ok [String.toList ".", String.toList "..", String.toList "a", String.toList "b"]
      else Except.error 20 }

/-- The tree of `envLink` under an oracle that has no rule for any path. -/
def envLinkNoMatch : Env :=
  { envLink with matchpathcon := fun _ _ => Lookup.NoMatch }

/-- Labels before the run on `envLink`: `/etc/passwd` carries its own. -/
def labelsLink : Str → Option Str := fun p =>
  if p = String.toList "/etc/passwd" then some (String.toList "system_u:object_r:passwd_file_t:s0")
  else none

/-- A tree with two directories on one level, each with one child:
`/r`, `/r/a`, `/r/b`, `/r/a/x`, `/r/b/y`. -/
def envTree : Env :=
  { emptyEnv with
    lstat := fun p =>
      if p = String.toList "/r" ∨ p = String.toList "/r/a" ∨ p = String.toList "/r/b" then
        Except.ok 0o040755
      else if p = String.toList "/r/a/x" ∨ p = String.toList "/r/b/y" then Except.ok 0o100644
      else Except.error 2
    opendir := fun p =>
      if p = String.toList "/r" then
        Except.ok [String.toList ".", String.toList "..", String.toList "a", String.toList "b"]
      else if p = String.toList "/r/a" then
        Except.ok [String.toList ".", String.toList "..", String.toList "x"]
      else if p = String.toList "/r/b" then
        Except.ok [String.toList ".", String.toList "..", String.toList "y"]
      else Except.error 20 }

/-- The entries of `envTree` under `/r`. -/
def treeEntries : List Str :=
  [String.toList "/r", String.toList "/r/a", String.toList "/r/b", String.toList "/r/a/x",
   String.toList "/r/b/y"]

/-- A directory `/d` with one child `c`, on which the label write is refused
(`EACCES`). -/
def envDenied : Env :=
  { emptyEnv with
    lstat := fun p =>
      if p = String.toList "/d" then Except.ok 0o040755
      else if p = String.toList "/d/c" then Except.ok 0o100644
      else Except.error 2
    setxattr := fun p => if p = String.toList "/d" then some 13 else none
    opendir := fun p =>
      if p = String.toList "/d" then
        Except.ok [String.toList ".", String.toList "..", String.toList "c"]
      else Except.error 20 }

/-- A file `/f` for which the policy database fails. -/
def envPolicyError : Env :=
  { emptyEnv with
    lstat := fun p => if p = String.toList "/f" then Except.ok 0o100644 else Except.error 2
    matchpathcon := fun _ _ => Lookup.Error 5 }

/-- A directory `/r` holding a directory `d` that cannot be opened (`EACCES`)
and a file `f`. -/
def envUnreadable : Env :=
  { emptyEnv with
    lstat := fun p =>
      if p = String.toList "/r" then Except.ok 0o040755
      else if p = String.toList "/r/d" then Except.ok 0o040000
      else if p = String.toList "/r/f" then Except.ok 0o100644
      else Except.error 2
    opendir := fun p =>
      if p = String.toList "/r" then
        Except.ok [String.toList ".", String.toList "..", String.toList "d", String.toList "f"]
      else Except.error 13 }

/-! # Theorems -/

set_option maxRecDepth 100000

/-! ## What one call of `restorecon` does -/

/-- When `lstat` fails: the error line, and `-1`. -/
theorem restorecon_stat_error (env : Env) (s : Proc) (p : Str) (v : Bool) (e : Nat)
    (hstat : env.lstat p = Except.error e) :
    restorecon env s p v
      = Run.ret (-1)
          { s with calls := s.calls ++ [p], errno := e,
                   stderr := s.stderr ++ [error_line (env.strerror e) p] } := by
  simp [restorecon, get_mode, hstat, restorecon_end]

/-- When `lstat` reports the mode 0: nothing is done. -/
theorem restorecon_mode_zero (env : Env) (s : Proc) (p : Str) (v : Bool)
    (hstat : env.lstat p = Except.ok 0) :
    restorecon env s p v = Run.ret 0 { s with calls := s.calls ++ [p] } := by
  simp [restorecon, get_mode, hstat, restorecon_end]

/-- When the array handed to `setfilecon` holds no terminator. -/
theorem restorecon_unterminated (env : Env) (s : Proc) (p : Str) (v : Bool) (m : Nat)
    (hstat : env.lstat p = Except.ok m) (hm : 0 < m)
    (hbuf : terminated (context_of env p m) = false) :
    restorecon env s p v
      = Run.undef
          { s with calls := s.calls ++ [p],
                   stderr := s.stderr ++ warning_lines env p m,
                   writes := s.writes ++ [(p, context_of env p m)] } := by
  by_cases hrc : (env.matchpathcon p m).rc = 0 <;>
    simp [restorecon, get_mode, hstat, hm, hbuf, hrc, setfilecon, Run.bind, warning_lines]

theorem restorecon_written (env : Env) (s : Proc) (p : Str) (v : Bool) (m : Nat)
    (hstat : env.lstat p = Except.ok m) (hm : 0 < m)
    (hbuf : terminated (context_of env p m) = true)
    (hset : env.setxattr (env.follow p) = none) :
    restorecon env s p v
      = Run.ret (m : Int)
          { s with calls := s.calls ++ [p],
                   stderr := s.stderr ++ warning_lines env p m,
                   writes := s.writes ++ [(p, context_of env p m)],
                   xattr := Function.update s.xattr (env.follow p)
                              (some (cstring (context_of env p m))),
                   stdout := s.stdout ++
                     (if v then [verbose_line p (cstring (context_of env p m))] else []) } := by
  by_cases hrc : (env.matchpathcon p m).rc = 0 <;> cases v <;>
    simp [restorecon, get_mode, hstat, hm, hbuf, hrc, hset, setfilecon, Run.bind,
      warning_lines, restorecon_end]

theorem restorecon_write_error (env : Env) (s : Proc) (p : Str) (v : Bool) (m e : Nat)
    (hstat : env.lstat p = Except.ok m) (hm : 0 < m)
    (hbuf : terminated (context_of env p m) = true)
    (hset : env.setxattr (env.follow p) = some e) :
    restorecon env s p v
      = Run.ret (-1)
          { s with calls := s.calls ++ [p],
                   stderr := s.stderr ++ warning_lines env p m ++ [error_line (env.strerror e) p],
                   writes := s.writes ++ [(p, context_of env p m)],
                   errno := e } := by
  by_cases hrc : (env.matchpathcon p m).rc = 0 <;>
    simp [restorecon, get_mode, hstat, hm, hbuf, hrc, hset, setfilecon, Run.bind,
      warning_lines, restorecon_end]


/-- What `restorecon` leaves untouched or extends, whatever the outcome: the
path is logged, the statics of `lsdir` are not touched, and standard output
grows by `restorecon_stdout`. -/
theorem restorecon_frame (env : Env) (s : Proc) (p : Str) (v : Bool) :
    (restorecon env s p v).proc.calls = s.calls ++ [p]
    ∧ (restorecon env s p v).proc.dp = s.dp
    ∧ (restorecon env s p v).proc.oldpath = s.oldpath
    ∧ (restorecon env s p v).proc.stdout = s.stdout ++ restorecon_stdout env p v := by
  cases hl : env.lstat p with
  | error e =>
    rw [restorecon_stat_error env s p v e hl]
    simp [Run.proc, restorecon_stdout, hl]
  | ok m =>
    rcases Nat.eq_zero_or_pos m with hz | hm
    · subst hz
      rw [restorecon_mode_zero env s p v hl]
      simp [Run.proc, restorecon_stdout, hl]
    · cases hb : terminated (context_of env p m) with
      | false =>
        rw [restorecon_unterminated env s p v m hl hm hb]
        simp [Run.proc, restorecon_stdout, hl, hb]
      | true =>
        cases hx : env.setxattr (env.follow p) with
        | none =>
          rw [restorecon_written env s p v m hl hm hb hx]
          cases v <;> simp [Run.proc, restorecon_stdout, hl, hb, hx, hm]
        | some e =>
          rw [restorecon_write_error env s p v m e hl hm hb hx]
          simp [Run.proc, restorecon_stdout, hl, hb, hx]

/-! ## The context array -/

theorem terminated_strncpy (con : Str) (n : Nat) (h : con.length < n) :
    terminated (strncpy con n) = true := by
  unfold terminated strncpy
  obtain ⟨k, hk⟩ : ∃ k, n - con.length = k + 1 := ⟨n - con.length - 1, by omega⟩
  simp [hk, List.replicate_succ]

theorem default_label_buffer :
    terminated (strncpy DEFAULT_LABEL MAX_CONTEXT_SIZE) = true
    ∧ cstring (strncpy DEFAULT_LABEL MAX_CONTEXT_SIZE) = DEFAULT_LABEL := by
  decide

/-- The array holds the fallback literal whenever the lookup did not succeed. -/
theorem context_of_failure (env : Env) (p : Str) (m : Nat)
    (h : (env.matchpathcon p m).rc ≠ 0) :
    context_of env p m = strncpy DEFAULT_LABEL MAX_CONTEXT_SIZE := by
  simp [context_of, h]

/-- The array handed to `setfilecon` is terminated as soon as the string
stored by the oracle is shorter than the array. -/
theorem terminated_context_of (env : Env) (p : Str) (m : Nat)
    (hlen : (env.matchpathcon p m).con.length < MAX_CONTEXT_SIZE) :
    terminated (context_of env p m) = true := by
  by_cases hrc : (env.matchpathcon p m).rc = 0
  · simp only [context_of, hrc, ne_eq, not_true_eq_false, if_false]
    exact terminated_strncpy _ _ hlen
  · rw [context_of_failure env p m hrc]
    exact default_label_buffer.1


/-! ## Depth of the paths built by `lsdir` -/

theorem components_append (p q : Str) (b : Bool) :
    components b (p ++ q) = components b p + components (inside_after b p) q := by
  induction p generalizing b with
  | nil => simp [components, inside_after]
  | cons c cs ih =>
    by_cases hc : c = '/'
    · simp [components, inside_after, hc, ih]
    · have hb : (c != '/') = true := by simp [hc]
      simp [components, inside_after, hc, hb, ih, Nat.add_assoc]

theorem inside_after_slash (p : Str) (b : Bool) (h : p.getLast? = some '/') :
    inside_after b p = false := by
  induction p generalizing b with
  | nil => simp at h
  | cons c cs ih =>
    cases cs with
    | nil =>
      simp at h
      simp [inside_after, h]
    | cons d ds =>
      rw [List.getLast?_cons_cons] at h
      show inside_after (c != '/') (d :: ds) = false
      exact ih (c != '/') h

theorem components_inside_name (n : Str) (h : '/' ∉ n) : components true n = 0 := by
  induction n with
  | nil => rfl
  | cons c cs ih =>
    have hc : c ≠ '/' := fun e => h (by simp [e])
    have hcs : '/' ∉ cs := fun e => h (by simp [e])
    simp [components, hc, ih hcs]

theorem components_name (n : Str) (h : EntryName n) : components false n = 1 := by
  obtain ⟨hne, hs⟩ := h
  cases n with
  | nil => exact absurd rfl hne
  | cons c cs =>
    have hc : c ≠ '/' := fun e => hs (by simp [e])
    have hcs : '/' ∉ cs := fun e => hs (by simp [e])
    simp [components, hc, components_inside_name cs hcs]

/-- A child lies one level below its directory. -/
theorem depth_child_path (p n : Str) (h : EntryName n) :
    depth (child_path p n) = depth p + 1 := by
  unfold child_path depth
  split
  · next hl =>
    rw [components_append, inside_after_slash p false hl, components_name n h]
  · rw [components_append]
    simp [components, components_name n h]

/-! ## Runs -/

theorem sat_bind {α β : Type} {r : Run α} {f : α → Proc → Run β} {I : Proc → Prop}
    {Q : α → Proc → Prop} {Q2 : β → Proc → Prop} (hr : r.Sat I Q)
    (hf : ∀ a s, I s → Q a s → (f a s).Sat I Q2) : (r.bind f).Sat I Q2 := by
  cases r with
  | ret a s => exact hf a s hr.1 (hr.2 a s rfl)
  | undef s => exact ⟨hr.1, fun a s1 h => by simp [Run.bind] at h⟩
  | exited c s => exact ⟨hr.1, fun a s1 h => by simp [Run.bind] at h⟩
  | stuck s => exact ⟨hr.1, fun a s1 h => by simp [Run.bind] at h⟩

theorem sat_ret {α : Type} {a : α} {s : Proc} {I : Proc → Prop} {Q : α → Proc → Prop}
    (hI : I s) (hQ : Q a s) : (Run.ret a s).Sat I Q :=
  ⟨hI, fun a1 s1 h => by cases h; exact hQ⟩


/-! ## The walk -/

theorem readdir_loop_some (stream : List Str) (d : Str) (rest : List Str)
    (h : readdir_loop stream = (some d, rest)) :
    d ∈ stream ∧ (∀ x ∈ rest, x ∈ stream) ∧ rest.length < stream.length := by
  induction stream with
  | nil => simp [readdir_loop] at h
  | cons e es ih =>
    unfold readdir_loop at h
    split_ifs at h with hdot
    · obtain ⟨h1, h2, h3⟩ := ih h
      exact ⟨List.mem_cons_of_mem _ h1, fun x hx => List.mem_cons_of_mem _ (h2 x hx),
        by simp; omega⟩
    · simp only [Prod.mk.injEq, Option.some.injEq] at h
      obtain ⟨rfl, rfl⟩ := h
      exact ⟨List.mem_cons_self _ _, fun x hx => List.mem_cons_of_mem _ hx, by simp⟩

theorem lsdir_open_walked (env : Env) (v : Bool) (out0 : List Str) (k : Nat) (s : Proc)
    (path : Str) (hnames : EntryNames env) (hs : Walked env v out0 k s) :
    Walked env v out0 k (lsdir_open env s path) := by
  obtain ⟨hdp, hpw, hle, hout⟩ := hs
  unfold lsdir_open
  split_ifs
  · cases ho : env.opendir path with
    | ok entries =>
      refine ⟨?_, hpw, hle, hout⟩
      intro st hst
      simp only [Option.some.injEq] at hst
      subst hst
      exact hnames path entries ho
    | error e =>
      refine ⟨?_, hpw, hle, hout⟩
      intro st hst
      simp at hst
  · exact ⟨hdp, hpw, hle, hout⟩

theorem lsdir_read_walked (env : Env) (v : Bool) (out0 : List Str) (k : Nat) (s : Proc)
    (path : Str) (hk : depth path = k) (hs : Walked env v out0 k s) :
    (lsdir_read s path).Sat (Walked env v out0 k)
      (fun first _ => ∀ c, first = some c → depth c = k + 1) := by
  obtain ⟨h1, h2, h3, h4⟩ := hs
  unfold lsdir_read
  cases hd : s.dp with
  | none => exact ⟨⟨h1, h2, h3, h4⟩, fun a s2 h => by simp at h⟩
  | some stream =>
    simp only []
    cases hr : readdir_loop stream with
    | mk o rest =>
      cases o with
      | none =>
        refine sat_ret ⟨?_, h2, h3, h4⟩ (fun c hc => by simp at hc)
        intro st hst
        simp at hst
      | some d =>
        obtain ⟨hmem, hsub, _⟩ := readdir_loop_some stream d rest hr
        refine sat_ret ⟨?_, h2, h3, h4⟩ ?_
        · intro st hst n hn
          simp only [Option.some.injEq] at hst
          subst hst
          exact h1 stream hd n (hsub n hn)
        · intro c hc
          simp only [Option.some.injEq] at hc
          subst hc
          rw [depth_child_path path d (h1 stream hd d hmem), hk]

theorem lsdir_walked (env : Env) (v : Bool) (out0 : List Str) (k : Nat) (s : Proc)
    (path : Str) (hnames : EntryNames env) (hk : depth path = k)
    (hs : Walked env v out0 k s) :
    (lsdir env s path).Sat (Walked env v out0 k)
      (fun first _ => ∀ c, first = some c → depth c = k + 1) :=
  lsdir_read_walked env v out0 k _ path hk (lsdir_open_walked env v out0 k s path hnames hs)

theorem lsdir_rest_walked (env : Env) (v : Bool) (out0 : List Str) (k : Nat) (path : Str)
    (hnames : EntryNames env) (hk : depth path = k) (fuel : Nat) :
    ∀ (s : Proc) (next : List Str), Walked env v out0 k s → (∀ x ∈ next, depth x = k + 1) →
      (lsdir_rest env fuel s path next).Sat (Walked env v out0 k)
        (fun next1 _ => ∀ x ∈ next1, depth x = k + 1) := by
  induction fuel with
  | zero =>
    intro s next hs _
    exact ⟨hs, fun a s1 h => by simp [lsdir_rest] at h⟩
  | succ fuel ih =>
    intro s next hs hnext
    rw [lsdir_rest]
    refine sat_bind (lsdir_walked env v out0 k s path hnames hk hs) ?_
    intro first s1 hs1 hfirst
    cases first with
    | none => exact sat_ret hs1 hnext
    | some child =>
      refine ih s1 _ hs1 ?_
      intro x hx
      simp only [append_queue, List.mem_append, List.mem_singleton] at hx
      rcases hx with hx | hx
      · exact hnext x hx
      · subst hx; exact hfirst _ rfl

theorem dircon_children_walked (env : Env) (v : Bool) (out0 : List Str) (k : Nat)
    (s : Proc) (path : Str) (mode : Int) (next : List Str)
    (hnames : EntryNames env) (hk : depth path = k)
    (hs : Walked env v out0 k s) (hnext : ∀ x ∈ next, depth x = k + 1) :
    (dircon_children env s path mode next).Sat (Walked env v out0 k)
      (fun next1 _ => ∀ x ∈ next1, depth x = k + 1) := by
  unfold dircon_children
  by_cases hm : 0 < mode
  · by_cases hd : (!S_ISLNK mode && S_ISDIR mode) = true
    · simp only [hm, hd, if_true]
      refine sat_bind (lsdir_walked env v out0 k s path hnames hk hs) ?_
      intro first s1 hs1 hfirst
      cases first with
      | none => exact sat_ret hs1 hnext
      | some child =>
        refine lsdir_rest_walked env v out0 k path hnames hk _ s1 _ hs1 ?_
        intro x hx
        by_cases hn : next = []
        · simp only [hn, if_true, create_queue, List.mem_singleton] at hx
          subst hx; exact hfirst _ rfl
        · simp only [hn, if_false] at hx
          exact hnext x hx
    · simp only [hm, hd, if_true]
      exact sat_ret hs hnext
  · simp only [hm, if_false]
    exact sat_ret hs hnext

theorem restorecon_walked (env : Env) (v : Bool) (out0 : List Str) (k : Nat)
    (s : Proc) (path : Str) (hk : depth path = k) (hs : Walked env v out0 k s) :
    (restorecon env s path v).Sat (Walked env v out0 k) (fun _ _ => True) := by
  obtain ⟨hdp, hpw, hle, hout⟩ := hs
  obtain ⟨hc, hd, _, ho⟩ := restorecon_frame env s path v
  refine ⟨⟨?_, ?_, ?_, ?_⟩, fun _ _ _ => trivial⟩
  · rw [hd]; exact hdp
  · rw [hc, List.pairwise_append]
    refine ⟨hpw, List.pairwise_singleton _ _, ?_⟩
    intro a ha b hb
    simp only [List.mem_singleton] at hb
    subst hb
    rw [hk]; exact hle a ha
  · rw [hc]
    intro c hcm
    simp only [List.mem_append, List.mem_singleton] at hcm
    rcases hcm with hcm | hcm
    · exact hle c hcm
    · subst hcm; exact le_of_eq hk
  · rw [ho, hc, hout]
    simp

theorem dircon_level_walked (env : Env) (v : Bool) (out0 : List Str) (k : Nat)
    (hnames : EntryNames env) (q : List Str) :
    ∀ (s : Proc) (next : List Str) (count : Int), (∀ p ∈ q, depth p = k) →
      Walked env v out0 k s → (∀ x ∈ next, depth x = k + 1) →
      (dircon_level env v s q next count).Sat (Walked env v out0 k)
        (fun r _ => ∀ x ∈ r.1, depth x = k + 1) := by
  induction q with
  | nil =>
    intro s next count _ hs hnext
    exact sat_ret hs hnext
  | cons p q ih =>
    intro s next count hq hs hnext
    rw [dircon_level]
    have hp : depth p = k := hq p (List.mem_cons_self _ _)
    refine sat_bind (restorecon_walked env v out0 k s p hp hs) ?_
    intro mode s1 hs1 _
    refine sat_bind (dircon_children_walked env v out0 k s1 p mode next hnames hp hs1 hnext) ?_
    intro next1 s2 hs2 hnext1
    exact ih s2 next1 (count + 1) (fun x hx => hq x (List.mem_cons_of_mem _ hx)) hs2 hnext1

theorem walked_succ {env : Env} {v : Bool} {out0 : List Str} {k : Nat} {s : Proc}
    (h : Walked env v out0 k s) : Walked env v out0 (k + 1) s :=
  ⟨h.1, h.2.1, fun c hc => Nat.le_succ_of_le (h.2.2.1 c hc), h.2.2.2⟩

theorem dircon_loop_walked (env : Env) (v : Bool) (out0 : List Str)
    (hnames : EntryNames env) (fuel : Nat) :
    ∀ (k : Nat) (s : Proc) (root : List Str) (count : Int), (∀ p ∈ root, depth p = k) →
      Walked env v out0 k s →
      ∃ n, Walked env v out0 n (dircon_loop env v fuel s root count).proc := by
  induction fuel with
  | zero =>
    intro k s root count _ hs
    cases root with
    | nil => exact ⟨k, by simpa [dircon_loop, Run.proc] using hs⟩
    | cons p q => exact ⟨k, by simpa [dircon_loop, Run.proc] using hs⟩
  | succ fuel ih =>
    intro k s root count hroot hs
    cases root with
    | nil => exact ⟨k, by simpa [dircon_loop, Run.proc] using hs⟩
    | cons p q =>
      rw [dircon_loop]
      have hl := dircon_level_walked env v out0 k hnames (p :: q) s [] count hroot hs
        (fun x hx => by simp at hx)
      cases hr : dircon_level env v s (p :: q) [] count with
      | ret r s1 =>
        rw [hr] at hl
        exact ih (k + 1) s1 r.1 r.2 (hl.2 r s1 rfl) (walked_succ hl.1)
      | undef s1 => rw [hr] at hl; exact ⟨k, hl.1⟩
      | exited c s1 => rw [hr] at hl; exact ⟨k, hl.1⟩
      | stuck s1 => rw [hr] at hl; exact ⟨k, hl.1⟩


/-! ## Termination of the walk -/

theorem returns_bind {α β : Type} {r : Run α} {f : α → Proc → Run β}
    {Q : α → Proc → Prop} {Q2 : β → Proc → Prop} (hr : r.Returns Q)
    (hf : ∀ a s, Q a s → (f a s).Returns Q2) : (r.bind f).Returns Q2 := by
  obtain ⟨a, s, rfl, hq⟩ := hr
  exact hf a s hq

theorem readdir_loop_not_dot (stream : List Str) (d : Str) (rest : List Str)
    (h : readdir_loop stream = (some d, rest)) :
    ¬ (d = String.toList "." ∨ d = String.toList "..") := by
  induction stream with
  | nil => simp [readdir_loop] at h
  | cons e es ih =>
    unfold readdir_loop at h
    split_ifs at h with hdot
    · exact ih h
    · simp only [Prod.mk.injEq, Option.some.injEq] at h
      obtain ⟨rfl, -⟩ := h
      exact hdot

/-- With statics zeroed, `restorecon` returns and leaves them so; a positive
mode returned is the one `lstat` reported. -/
theorem restorecon_returns (env : Env) (N : Nat) (ht : Tame env N) (s : Proc) (p : Str)
    (v : Bool) :
    (restorecon env s p v).Returns (fun mode s1 =>
      s1.dp = s.dp ∧ s1.oldpath = s.oldpath
        ∧ (0 < mode → env.lstat p = Except.ok mode.toNat)) := by
  cases hl : env.lstat p with
  | error e =>
    exact ⟨_, _, restorecon_stat_error env s p v e hl, rfl, rfl, fun h => by omega⟩
  | ok m =>
    rcases Nat.eq_zero_or_pos m with hz | hm
    · subst hz
      exact ⟨_, _, restorecon_mode_zero env s p v hl, rfl, rfl, fun h => by omega⟩
    · have hb := terminated_context_of env p m (ht.short p m)
      cases hx : env.setxattr (env.follow p) with
      | none =>
        exact ⟨_, _, restorecon_written env s p v m hl hm hb hx, rfl, rfl, fun _ => by simp⟩
      | some e =>
        exact ⟨_, _, restorecon_write_error env s p v m e hl hm hb hx, rfl, rfl,
          fun h => by omega⟩

/-- The `lsdir` loop on an open stream of `path` returns within as many steps
as the stream has entries, plus one, and leaves the statics zeroed. -/
theorem lsdir_rest_returns (env : Env) (k : Nat) (path : Str) (hk : depth path = k)
    (fuel : Nat) :
    ∀ (s : Proc) (next stream : List Str), s.oldpath = some path → s.dp = some stream →
      stream.length < fuel → (∀ n ∈ stream, EntryName n) → (∀ x ∈ next, depth x = k + 1) →
      (lsdir_rest env fuel s path next).Returns (fun next1 s1 =>
        s1.oldpath = none ∧ s1.dp = none ∧ ∀ x ∈ next1, depth x = k + 1) := by
  induction fuel with
  | zero => intro s next stream _ _ hlt; omega
  | succ fuel ih =>
    intro s next stream hold hdp hlt hnames hnext
    have hopen : lsdir_open env s path = s := by simp [lsdir_open, hold]
    rw [lsdir_rest, lsdir, hopen]
    unfold lsdir_read
    rw [hdp]
    simp only []
    cases hr : readdir_loop stream with
    | mk o rest =>
      cases o with
      | none => exact ⟨_, _, rfl, rfl, rfl, hnext⟩
      | some d =>
        obtain ⟨hmem, hsub, hlen⟩ := readdir_loop_some stream d rest hr
        simp only [Run.bind]
        refine ih _ _ rest hold rfl (by omega) (fun n hn => hnames n (hsub n hn)) ?_
        intro x hx
        simp only [append_queue, List.mem_append, List.mem_singleton] at hx
        rcases hx with hx | hx
        · exact hnext x hx
        · subst hx
          rw [depth_child_path path d (hnames d hmem), hk]

theorem dircon_children_returns (env : Env) (N : Nat) (ht : Tame env N) (k : Nat)
    (s : Proc) (path : Str) (mode : Int) (next : List Str) (hk : depth path = k)
    (hold : s.oldpath = none) (hdp : s.dp = none)
    (hmode : 0 < mode → env.lstat path = Except.ok mode.toNat)
    (hnext : ∀ x ∈ next, depth x = k + 1) :
    (dircon_children env s path mode next).Returns (fun next1 s1 =>
      s1.oldpath = none ∧ s1.dp = none ∧ (∀ x ∈ next1, depth x = k + 1)
        ∧ (N ≤ k → next1 = next)) := by
  unfold dircon_children
  by_cases hm : 0 < mode
  · by_cases hd : (!S_ISLNK mode && S_ISDIR mode) = true
    · simp only [hm, hd, if_true]
      have hdir : S_ISDIR ((mode.toNat : Nat) : Int) = true := by
        rw [Int.toNat_of_nonneg (le_of_lt hm)]
        simp only [Bool.and_eq_true] at hd
        exact hd.2
      obtain ⟨entries, ho⟩ := ht.opens path mode.toNat (hmode hm) hdir
      have hopen : lsdir_open env s path
          = { s with oldpath := some path, dp := some entries } := by
        simp [lsdir_open, hold, ho]
      rw [lsdir, hopen]
      unfold lsdir_read
      simp only []
      cases hr : readdir_loop entries with
      | mk o rest =>
        cases o with
        | none => exact ⟨_, _, rfl, rfl, rfl, hnext, fun _ => rfl⟩
        | some d =>
          obtain ⟨hmem, hsub, hlen⟩ := readdir_loop_some entries d rest hr
          have hnd := readdir_loop_not_dot entries d rest hr
          have hnames := ht.names path entries ho
          simp only [Run.bind, Proc.pending]
          obtain ⟨next1, s1, hrun, h1, h2, h3⟩ :=
            lsdir_rest_returns env k path hk (rest.length + 1)
              { s with oldpath := some path, dp := some rest }
              (if next = [] then create_queue (child_path path d) else next) rest
              rfl rfl (by omega) (fun n hn => hnames n (hsub n hn))
              (by
                intro x hx
                by_cases hn : next = []
                · simp only [hn, if_true, create_queue, List.mem_singleton] at hx
                  subst hx
                  rw [depth_child_path path d (hnames d hmem), hk]
                · simp only [hn, if_false] at hx
                  exact hnext x hx)
          refine ⟨next1, s1, hrun, h1, h2, h3, ?_⟩
          intro hN
          exact absurd (ht.bounded path entries (by omega) ho d hmem) hnd
    · simp only [hm, hd, if_true]
      exact ⟨_, _, rfl, hold, hdp, hnext, fun _ => rfl⟩
  · simp only [hm, if_false]
    exact ⟨_, _, rfl, hold, hdp, hnext, fun _ => rfl⟩

theorem dircon_level_returns (env : Env) (N : Nat) (ht : Tame env N) (v : Bool) (k : Nat)
    (q : List Str) :
    ∀ (s : Proc) (next : List Str) (count : Int), (∀ p ∈ q, depth p = k) →
      s.oldpath = none → s.dp = none → (∀ x ∈ next, depth x = k + 1) →
      (dircon_level env v s q next count).Returns (fun r s1 =>
        s1.oldpath = none ∧ s1.dp = none ∧ (∀ x ∈ r.1, depth x = k + 1)
          ∧ (N ≤ k → r.1 = next) ∧ r.2 = count + q.length) := by
  induction q with
  | nil =>
    intro s next count _ hold hdp hnext
    exact ⟨_, _, rfl, hold, hdp, hnext, fun _ => rfl, by simp⟩
  | cons p q ih =>
    intro s next count hq hold hdp hnext
    rw [dircon_level]
    have hp : depth p = k := hq p (List.mem_cons_self _ _)
    refine returns_bind (restorecon_returns env N ht s p v) ?_
    intro mode s1 ⟨h1, h2, h3⟩
    refine returns_bind
      (dircon_children_returns env N ht k s1 p mode next hp (by rw [h2, hold])
        (by rw [h1, hdp]) h3 hnext) ?_
    intro next1 s2 ⟨g1, g2, g3, g4⟩
    obtain ⟨r, s3, hrun, f1, f2, f3, f4, f5⟩ :=
      ih s2 next1 (count + 1) (fun x hx => hq x (List.mem_cons_of_mem _ hx)) g1 g2 g3
    refine ⟨r, s3, hrun, f1, f2, f3, fun hN => ?_, ?_⟩
    · rw [f4 hN, g4 hN]
    · rw [f5]; simp only [List.length_cons]; push_cast; ring

theorem dircon_loop_returns (env : Env) (N : Nat) (ht : Tame env N) (v : Bool)
    (fuel : Nat) :
    ∀ (k : Nat) (s : Proc) (root : List Str) (count : Int), (∀ p ∈ root, depth p = k) →
      s.oldpath = none → s.dp = none → 1 ≤ fuel → N + 1 ≤ k + fuel →
      (dircon_loop env v fuel s root count).Returns (fun _ s1 =>
        s1.oldpath = none ∧ s1.dp = none) := by
  induction fuel with
  | zero => intro k s root count _ _ _ h1; omega
  | succ fuel ih =>
    intro k s root count hroot hold hdp _ hN
    cases root with
    | nil => exact ⟨count, s, by simp [dircon_loop], hold, hdp⟩
    | cons p q =>
      rw [dircon_loop]
      refine returns_bind
        (dircon_level_returns env N ht v k (p :: q) s [] count hroot hold hdp
          (fun x hx => by simp at hx)) ?_
      intro r s1 ⟨h1, h2, h3, h4, _⟩
      rcases Nat.eq_zero_or_pos fuel with hz | hpos
      · subst hz
        have hr : r.1 = [] := h4 (by omega)
        rw [hr]
        exact ⟨r.2, s1, by simp [dircon_loop], h1, h2⟩
      · exact ih (k + 1) s1 r.1 r.2 h3 h1 h2 hpos (by omega)

/-- In an environment where every oracle answer fits the array, every
directory opens and the tree is no deeper than `N`, `dircon` returns a count
as soon as the fuel covers the levels below the root. -/
theorem dircon_returns (env : Env) (N : Nat) (ht : Tame env N) (fuel : Nat) (s : Proc)
    (path : Str) (v : Bool) (hold : s.oldpath = none) (hdp : s.dp = none)
    (hfuel : N + 1 ≤ depth path + fuel) (hpos : 1 ≤ fuel) :
    ∃ count s1, dircon env fuel s path v = Run.ret count s1 := by
  obtain ⟨count, s1, h, -⟩ :=
    dircon_loop_returns env N ht v fuel (depth path) s (create_queue path) 0
      (fun p hp => by simp only [create_queue, List.mem_singleton] at hp; rw [hp])
      hold hdp hpos hfuel
  exact ⟨count, s1, h⟩


/-! ## The per-path pipeline -/

/-- C5 (amended): when the stat of `p` succeeds and the label write fails,
`restorecon` prints the error line and returns `-1`; `dircon` then counts the
visit, does not call `lsdir` for `p` (the statics and the next level are
unchanged, whatever the mode of `p`), and goes on with the rest of the
level. -/
theorem dircon_level_write_failure (env : Env) (s : Proc) (p : Str) (v : Bool) (m e : Nat)
    (q next : List Str) (count : Int)
    (hstat : env.lstat p = Except.ok m) (hm : 0 < m)
    (hlen : (env.matchpathcon p m).con.length < MAX_CONTEXT_SIZE)
    (hset : env.setxattr (env.follow p) = some e) :
    ∃ s1, restorecon env s p v = Run.ret (-1) s1
      ∧ s1.stderr = s.stderr ++ warning_lines env p m ++ [error_line (env.strerror e) p]
      ∧ s1.xattr = s.xattr ∧ s1.dp = s.dp ∧ s1.oldpath = s.oldpath
      ∧ dircon_children env s1 p (-1) next = Run.ret next s1
      ∧ dircon_level env v s (p :: q) next count = dircon_level env v s1 q next (count + 1) := by
  have hb := terminated_context_of env p m hlen
  have hr := restorecon_write_error env s p v m e hstat hm hb hset
  refine ⟨_, hr, rfl, rfl, rfl, rfl, ?_, ?_⟩
  · simp [dircon_children]
  · rw [dircon_level, hr]
    simp [Run.bind, dircon_children]

/-- On `NoMatch`, for every path whose stat succeeds: `restorecon` prints
`Warning: no default context for <p>` and the string it hands to the label
writer is exactly `system_u:object_r:unlabeled_t`; when the write succeeds,
that literal is stored on the object `setfilecon` reaches from `p`, which is
`p` itself only when `p` is not a symbolic link. -/
theorem no_match_hands_fallback (env : Env) (s : Proc) (p : Str) (v : Bool)
    (m : Nat) (hstat : env.lstat p = Except.ok m) (hm : 0 < m)
    (hno : env.matchpathcon p m = Lookup.NoMatch) :
    (∃ more, (restorecon env s p v).proc.stderr
        = s.stderr ++ [String.toList "Warning: no default context for " ++ p ++ [NL]] ++ more)
    ∧ (∃ buf, (restorecon env s p v).proc.writes = s.writes ++ [(p, buf)]
        ∧ terminated buf = true
        ∧ cstring buf = String.toList "system_u:object_r:unlabeled_t")
    ∧ (env.setxattr (env.follow p) = none →
        (restorecon env s p v).proc.xattr (env.follow p)
            = some (String.toList "system_u:object_r:unlabeled_t")
        ∧ (restorecon env s p v).proc.stderr
            = s.stderr ++ [String.toList "Warning: no default context for " ++ p ++ [NL]]) := by
  have hrc : (env.matchpathcon p m).rc ≠ 0 := by simp [hno, Lookup.rc]
  have hc := context_of_failure env p m hrc
  have hb : terminated (context_of env p m) = true := by rw [hc]; exact default_label_buffer.1
  have hs : cstring (context_of env p m) = String.toList "system_u:object_r:unlabeled_t" := by
    rw [hc]; exact default_label_buffer.2
  have hw : warning_lines env p m
      = [String.toList "Warning: no default context for " ++ p ++ [NL]] := by
    simp [warning_lines, hrc, warning_line]
  cases hx : env.setxattr (env.follow p) with
  | none =>
    rw [restorecon_written env s p v m hstat hm hb hx]
    refine ⟨⟨[], ?_⟩, ⟨_, rfl, hb, hs⟩, fun _ => ⟨?_, ?_⟩⟩
    · simp [Run.proc, hw]
    · simp [Run.proc, hs]
    · simp [Run.proc, hw]
  | some e =>
    rw [restorecon_write_error env s p v m e hstat hm hb hx]
    refine ⟨⟨[error_line (env.strerror e) p], ?_⟩, ⟨_, rfl, hb, hs⟩, fun h => ?_⟩
    · simp [Run.proc, hw]
    · simp at h

/-- C8 (amended): when the stat of `p` succeeds and the oracle lookup fails
with an error, `restorecon` does as for `NoMatch`: it prints the warning line
and hands the fallback literal to the label writer, which stores it when the
write succeeds; it returns, so that the `count++` of `dircon` that follows
counts the visit. -/
theorem restorecon_policy_error_uses_fallback (env : Env) (s : Proc) (p : Str) (v : Bool)
    (m k : Nat) (q next : List Str) (count : Int)
    (hstat : env.lstat p = Except.ok m) (hm : 0 < m)
    (herr : env.matchpathcon p m = Lookup.Error k) :
    ∃ mode s1, restorecon env s p v = Run.ret mode s1
      ∧ (∃ buf, s1.writes = s.writes ++ [(p, buf)] ∧ terminated buf = true
          ∧ cstring buf = DEFAULT_LABEL)
      ∧ (∃ more, s1.stderr = s.stderr ++ [warning_line p] ++ more)
      ∧ (env.setxattr (env.follow p) = none →
          s1.xattr (env.follow p) = some DEFAULT_LABEL
          ∧ s1.stderr = s.stderr ++ [warning_line p])
      ∧ dircon_level env v s (p :: q) next count
          = (dircon_children env s1 p mode next).bind
              (fun next1 s2 => dircon_level env v s2 q next1 (count + 1)) := by
  have hrc : (env.matchpathcon p m).rc ≠ 0 := by simp [herr, Lookup.rc]
  have hc := context_of_failure env p m hrc
  have hb : terminated (context_of env p m) = true := by rw [hc]; exact default_label_buffer.1
  have hs : cstring (context_of env p m) = DEFAULT_LABEL := by
    rw [hc]; exact default_label_buffer.2
  have hw : warning_lines env p m = [warning_line p] := by simp [warning_lines, hrc]
  cases hx : env.setxattr (env.follow p) with
  | none =>
    have hr := restorecon_written env s p v m hstat hm hb hx
    refine ⟨_, _, hr, ⟨_, rfl, hb, hs⟩, ⟨[], ?_⟩, fun _ => ⟨?_, ?_⟩, ?_⟩
    · simp [hw]
    · simp [hs]
    · simp [hw]
    · rw [dircon_level, hr]; rfl
  | some e =>
    have hr := restorecon_write_error env s p v m e hstat hm hb hx
    refine ⟨_, _, hr, ⟨_, rfl, hb, hs⟩, ⟨[error_line (env.strerror e) p], ?_⟩, fun h => ?_, ?_⟩
    · simp [hw]
    · simp at h
    · rw [dircon_level, hr]; rfl


/-! ## Order of the visits -/

/-- C9: for every environment whose directory streams hold entry names, every
fuel and every outcome of `dircon` started with an empty log and no open
stream, the paths handed to `restorecon` are in order of depth: a path is
visited before every deeper one; standard output is, in that same order, what
`restorecon` printed for each visited path (its verbose line); and on a tree
of bounded depth where the walk goes through (`Tame`), the run returns as soon
as the fuel covers the levels. -/
theorem dircon_visits_by_level (env : Env) (fuel : Nat) (s : Proc) (path : Str) (v : Bool)
    (hnames : EntryNames env) (hcalls : s.calls = []) (hdp : s.dp = none) :
    (∀ (i j : Nat) (a b : Str),
        (dircon env fuel s path v).proc.calls[i]? = some a →
        (dircon env fuel s path v).proc.calls[j]? = some b →
        depth a < depth b → i < j)
    ∧ (dircon env fuel s path v).proc.stdout
        = s.stdout ++ (dircon env fuel s path v).proc.calls.flatMap
            (fun p => restorecon_stdout env p v)
    ∧ (∀ N, Tame env N → s.oldpath = none → N + 1 ≤ depth path + fuel → 1 ≤ fuel →
        ∃ count s1, dircon env fuel s path v = Run.ret count s1) := by
  have h0 : Walked env v s.stdout (depth path) s := by
    refine ⟨?_, ?_, ?_, ?_⟩
    · intro st hst; rw [hdp] at hst; simp at hst
    · rw [hcalls]; exact List.Pairwise.nil
    · rw [hcalls]; intro c hc; simp at hc
    · rw [hcalls]; simp
  obtain ⟨n, -, hpw, -, hout⟩ :=
    dircon_loop_walked env v s.stdout hnames fuel (depth path) s (create_queue path) 0
      (fun p hp => by simp only [create_queue, List.mem_singleton] at hp; rw [hp]) h0
  refine ⟨?_, hout, fun N ht hold hfuel hpos =>
    dircon_returns env N ht fuel s path v hold hdp hfuel hpos⟩
  intro i j a b hi hj hlt
  rw [List.getElem?_eq_some] at hi hj
  obtain ⟨hi1, hi2⟩ := hi
  obtain ⟨hj1, hj2⟩ := hj
  by_contra hij
  rcases Nat.lt_or_eq_of_le (Nat.le_of_not_lt hij) with hji | hji
  · have := (List.pairwise_iff_getElem.mp hpw) j i hj1 hi1 hji
    change depth (dircon_loop env v fuel s (create_queue path) 0).proc.calls[j]
      ≤ depth (dircon_loop env v fuel s (create_queue path) 0).proc.calls[i] at this
    have e1 : (dircon_loop env v fuel s (create_queue path) 0).proc.calls[j] = b := hj2
    have e2 : (dircon_loop env v fuel s (create_queue path) 0).proc.calls[i] = a := hi2
    rw [e1, e2] at this
    omega
  · subst hji
    have e : a = b := by rw [← hi2, ← hj2]
    subst e
    omega


/-! ## Evaluations of the program on the scenarios -/


/-- C1: on the symbolic link `/tmp/t3/b` to `/etc/passwd`, `restorecon` hands
the path to `setfilecon`, which follows the link: the label of the target
`/etc/passwd` is replaced by the context looked up for the link, and the link
itself gets no label; so does the run of `dircon` on `/tmp/t3`, which visits
the link. -/
theorem restorecon_labels_link_target :
    labelsLink (String.toList "/etc/passwd")
        = some (String.toList "system_u:object_r:passwd_file_t:s0")
    ∧ (restorecon envLink (Proc.init labelsLink) (String.toList "/tmp/t3/b") false).proc.xattr
        (String.toList "/etc/passwd") = some tmp_t
    ∧ (restorecon envLink (Proc.init labelsLink) (String.toList "/tmp/t3/b") false).proc.xattr
        (String.toList "/tmp/t3/b") = none
    ∧ (restorecon envLink (Proc.init labelsLink) (String.toList "/tmp/t3/b") false).proc.writes
        = [(String.toList "/tmp/t3/b", strncpy tmp_t MAX_CONTEXT_SIZE)]
    ∧ (dircon envLink 3 (Proc.init labelsLink) (String.toList "/tmp/t3") true).val = some 3
    ∧ (dircon envLink 3 (Proc.init labelsLink) (String.toList "/tmp/t3") true).proc.calls
        = [String.toList "/tmp/t3", String.toList "/tmp/t3/a", String.toList "/tmp/t3/b"]
    ∧ (dircon envLink 3 (Proc.init labelsLink) (String.toList "/tmp/t3") true).proc.xattr
        (String.toList "/etc/passwd") = some tmp_t
    ∧ (dircon envLink 3 (Proc.init labelsLink) (String.toList "/tmp/t3") true).proc.xattr
        (String.toList "/tmp/t3/b") = none := by
  decide

/-- C2: without `-R`, on the regular file `/tmp/t1/f` of mode `0100644` whose
stat and label write succeed, `restore` returns the mode 33188, not 1, and
the line printed is `Total: 33188`. -/
theorem restore_returns_mode :
    (restore envS1 0 (Proc.init noLabels) (String.toList "/tmp/t1/f") false false).val
        = some 33188
    ∧ (main_loop envS1 0 false false (Proc.init noLabels) [String.toList "/tmp/t1/f"]).proc.stdout
        = [String.toList "Total: 33188" ++ [NL]]
    ∧ (main_loop envS1 0 false false (Proc.init noLabels) [String.toList "/tmp/t1/f"]).proc.writes
        = [(String.toList "/tmp/t1/f", strncpy tmp_t MAX_CONTEXT_SIZE)] := by
  decide

/-- C3: on the tree `/r`, `/r/a`, `/r/b`, `/r/a/x`, `/r/b/y` (five entries,
every stat, write and directory read succeeding) `dircon` returns 4: the
first child of the second directory of a level, `/r/b/y`, is read by `lsdir`
but never put on the queue. -/
theorem dircon_drops_first_child :
    (dircon envTree 3 (Proc.init noLabels) (String.toList "/r") false).val = some 4
    ∧ (dircon envTree 3 (Proc.init noLabels) (String.toList "/r") false).proc.calls
        = [String.toList "/r", String.toList "/r/a", String.toList "/r/b",
           String.toList "/r/a/x"]
    ∧ treeEntries.length = 5
    ∧ (∀ p ∈ treeEntries, (envTree.lstat p).toBool = true)
    ∧ envTree.opendir (String.toList "/r/b")
        = Except.ok [String.toList ".", String.toList "..", String.toList "y"] := by
  decide

/-- C4: the value `set_idle` passes to `ioprio_set` is `3 | (2 << 13)`: the
class in the bits above `IOPRIO_CLASS_SHIFT` is `IOPRIO_CLASS_BE` (2), not
`IOPRIO_CLASS_IDLE` (3); the `who` argument is `IOPRIO_WHO_PROCESS`. -/
theorem set_idle_class_is_best_effort :
    set_idle_ioprio = 16387
    ∧ set_idle_ioprio >>> IOPRIO_CLASS_SHIFT = IOPRIO_CLASS_BE
    ∧ set_idle_ioprio >>> IOPRIO_CLASS_SHIFT ≠ IOPRIO_CLASS_IDLE
    ∧ ∀ (env : Env) (s : Proc),
        (set_idle env s).proc.ioprio = s.ioprio ++ [(IOPRIO_WHO_PROCESS, 0, set_idle_ioprio)] := by
  refine ⟨by decide, by decide, by decide, ?_⟩
  intro env s
  unfold set_idle
  cases env.ioprio_set IOPRIO_WHO_PROCESS 0 set_idle_ioprio with
  | some e => rfl
  | none =>
    cases env.setpriority PRIO_PROCESS 0 19 with
    | some e => rfl
    | none => rfl

/-- C5 (as stated, refuted): on the directory `/d`, whose stat succeeds and
whose label write is refused, `dircon` does not read the children: `/d/c` is
never visited and the count is 1. -/
theorem dircon_skips_children_after_write_failure :
    envDenied.lstat (String.toList "/d") = Except.ok 0o040755
    ∧ envDenied.opendir (String.toList "/d")
        = Except.ok [String.toList ".", String.toList "..", String.toList "c"]
    ∧ (dircon envDenied 3 (Proc.init noLabels) (String.toList "/d") false).val = some 1
    ∧ (dircon envDenied 3 (Proc.init noLabels) (String.toList "/d") false).proc.calls
        = [String.toList "/d"] := by
  decide

/-- C7: on the symbolic link `/tmp/t3/b` to `/etc/passwd`, whose stat succeeds
and for which the oracle answers `NoMatch`, `restorecon` prints the warning
line and hands the fallback literal to `setfilecon`, and the write succeeds;
but `setfilecon` follows the link: the label of the path `/tmp/t3/b` is not
the literal (the link keeps having none), it is `/etc/passwd` that now
carries `system_u:object_r:unlabeled_t`. -/
theorem no_match_label_lands_on_link_target :
    envLinkNoMatch.lstat (String.toList "/tmp/t3/b") = Except.ok 0o120777
    ∧ envLinkNoMatch.matchpathcon (String.toList "/tmp/t3/b") 0o120777 = Lookup.NoMatch
    ∧ (restorecon envLinkNoMatch (Proc.init labelsLink) (String.toList "/tmp/t3/b") false).val
        = some 0o120777
    ∧ (restorecon envLinkNoMatch (Proc.init labelsLink) (String.toList "/tmp/t3/b")
        false).proc.stderr = [warning_line (String.toList "/tmp/t3/b")]
    ∧ (restorecon envLinkNoMatch (Proc.init labelsLink) (String.toList "/tmp/t3/b")
        false).proc.writes
        = [(String.toList "/tmp/t3/b", strncpy DEFAULT_LABEL MAX_CONTEXT_SIZE)]
    ∧ (restorecon envLinkNoMatch (Proc.init labelsLink) (String.toList "/tmp/t3/b")
        false).proc.xattr (String.toList "/tmp/t3/b") = none
    ∧ (restorecon envLinkNoMatch (Proc.init labelsLink) (String.toList "/tmp/t3/b")
        false).proc.xattr (String.toList "/tmp/t3/b")
        ≠ some (String.toList "system_u:object_r:unlabeled_t")
    ∧ labelsLink (String.toList "/etc/passwd")
        = some (String.toList "system_u:object_r:passwd_file_t:s0")
    ∧ (restorecon envLinkNoMatch (Proc.init labelsLink) (String.toList "/tmp/t3/b")
        false).proc.xattr (String.toList "/etc/passwd")
        = some (String.toList "system_u:object_r:unlabeled_t") := by
  decide

/-- C8 (as stated, refuted): when the policy database fails for `/f`,
`restorecon` still writes a label, the fallback literal, and prints the
warning line and no error line. -/
theorem restorecon_writes_on_policy_error :
    envPolicyError.matchpathcon (String.toList "/f") 0o100644 = Lookup.Error 5
    ∧ (restorecon envPolicyError (Proc.init noLabels) (String.toList "/f") false).proc.xattr
        (String.toList "/f") = some DEFAULT_LABEL
    ∧ (restorecon envPolicyError (Proc.init noLabels) (String.toList "/f") false).proc.stderr
        = [warning_line (String.toList "/f")] := by
  decide

/-- C10: on `/r` holding the directory `d`, labelled but not openable, and the
file `f`, `lsdir` calls `readdir` on the null stream: the run ends in
undefined behaviour, nothing is reported and `/r/f` is never visited. -/
theorem lsdir_reads_null_stream :
    envUnreadable.opendir (String.toList "/r/d") = Except.error 13
    ∧ (dircon envUnreadable 3 (Proc.init noLabels) (String.toList "/r") false).val = none
    ∧ (lsdir envUnreadable (Proc.init noLabels) (String.toList "/r/d")).val = none
    ∧ (lsdir envUnreadable (Proc.init noLabels) (String.toList "/r/d")).proc.dp = none
    ∧ (dircon envUnreadable 3 (Proc.init noLabels) (String.toList "/r") false).proc.calls
        = [String.toList "/r", String.toList "/r/d"]
    ∧ (dircon envUnreadable 3 (Proc.init noLabels) (String.toList "/r") false).proc.stderr
        = [] := by
  decide

/-! ## The theorems on the scenarios -/

theorem envTree_names : EntryNames envTree := by
  intro p entries h
  unfold envTree at h
  simp only at h
  split_ifs at h <;> simp only [Except.ok.injEq, reduceCtorEq] at h <;> subst h <;> decide

theorem envTree_tame : Tame envTree 3 := by
  refine ⟨envTree_names,
    fun _ _ => (by decide : tmp_t.length < MAX_CONTEXT_SIZE), ?_, ?_⟩
  · intro p m h hdir
    unfold envTree at h ⊢
    simp only at h ⊢
    split_ifs at h with h1 h2
    · rcases h1 with h1 | h1 | h1 <;> subst h1 <;> exact ⟨_, rfl⟩
    · simp only [Except.ok.injEq] at h
      subst h
      exact absurd hdir (by decide)
  · intro p entries hN h
    unfold envTree at h
    simp only at h
    split_ifs at h with h1 h2 h3 <;> simp only [Except.ok.injEq, reduceCtorEq] at h
    · subst h1; exact absurd hN (by decide)
    · subst h2; exact absurd hN (by decide)
    · subst h3; exact absurd hN (by decide)

theorem dircon_level_write_failure_witness :
    envDenied.lstat (String.toList "/d") = Except.ok 0o040755
    ∧ S_ISDIR 0o040755 = true
    ∧ envDenied.setxattr (envDenied.follow (String.toList "/d")) = some 13
    ∧ ∃ s1, restorecon envDenied (Proc.init noLabels) (String.toList "/d") false = Run.ret (-1) s1
      ∧ s1.stderr = (Proc.init noLabels).stderr
          ++ warning_lines envDenied (String.toList "/d") 0o040755
          ++ [error_line (envDenied.strerror 13) (String.toList "/d")]
      ∧ s1.xattr = (Proc.init noLabels).xattr ∧ s1.dp = (Proc.init noLabels).dp
      ∧ s1.oldpath = (Proc.init noLabels).oldpath
      ∧ dircon_children envDenied s1 (String.toList "/d") (-1) [] = Run.ret [] s1
      ∧ dircon_level envDenied false (Proc.init noLabels) [String.toList "/d"] [] 0
          = dircon_level envDenied false s1 [] [] (0 + 1) :=
  ⟨rfl, by decide, rfl,
    dircon_level_write_failure envDenied (Proc.init noLabels) (String.toList "/d") false
      0o040755 13 [] [] 0 rfl (by decide) (by decide) rfl⟩

theorem no_match_hands_fallback_on_file :
    envS3.lstat (String.toList "/tmp/t1/x") = Except.ok 0o100644
    ∧ envS3.matchpathcon (String.toList "/tmp/t1/x") 0o100644 = Lookup.NoMatch
    ∧ (restorecon envS3 (Proc.init noLabels) (String.toList "/tmp/t1/x") false).proc.xattr
        (String.toList "/tmp/t1/x") = some (String.toList "system_u:object_r:unlabeled_t")
    ∧ (restorecon envS3 (Proc.init noLabels) (String.toList "/tmp/t1/x") false).proc.stderr
        = [] ++ [String.toList "Warning: no default context for " ++ String.toList "/tmp/t1/x"
            ++ [NL]] :=
  ⟨rfl, rfl,
    (no_match_hands_fallback envS3 (Proc.init noLabels) (String.toList "/tmp/t1/x")
      false 0o100644 rfl (by decide) rfl).2.2 rfl⟩

theorem restorecon_policy_error_uses_fallback_witness :
    envPolicyError.lstat (String.toList "/f") = Except.ok 0o100644
    ∧ envPolicyError.matchpathcon (String.toList "/f") 0o100644 = Lookup.Error 5
    ∧ ∃ mode s1,
        restorecon envPolicyError (Proc.init noLabels) (String.toList "/f") false
          = Run.ret mode s1
      ∧ (∃ buf, s1.writes = (Proc.init noLabels).writes ++ [(String.toList "/f", buf)]
          ∧ terminated buf = true ∧ cstring buf = DEFAULT_LABEL)
      ∧ (∃ more, s1.stderr
            = (Proc.init noLabels).stderr ++ [warning_line (String.toList "/f")] ++ more)
      ∧ (envPolicyError.setxattr (envPolicyError.follow (String.toList "/f")) = none →
          s1.xattr (envPolicyError.follow (String.toList "/f")) = some DEFAULT_LABEL
          ∧ s1.stderr = (Proc.init noLabels).stderr ++ [warning_line (String.toList "/f")])
      ∧ dircon_level envPolicyError false (Proc.init noLabels) [String.toList "/f"] [] 0
          = (dircon_children envPolicyError s1 (String.toList "/f") mode []).bind
              (fun next1 s2 => dircon_level envPolicyError false s2 [] next1 (0 + 1)) :=
  ⟨rfl, rfl,
    restorecon_policy_error_uses_fallback envPolicyError (Proc.init noLabels)
      (String.toList "/f") false 0o100644 5 [] [] 0 rfl (by decide) rfl⟩

theorem dircon_visits_by_level_witness :
    EntryNames envTree
    ∧ Tame envTree 3
    ∧ (∀ (i j : Nat) (a b : Str),
        (dircon envTree 3 (Proc.init noLabels) (String.toList "/r") true).proc.calls[i]? = some a →
        (dircon envTree 3 (Proc.init noLabels) (String.toList "/r") true).proc.calls[j]? = some b →
        depth a < depth b → i < j)
    ∧ (dircon envTree 3 (Proc.init noLabels) (String.toList "/r") true).proc.stdout
        = (Proc.init noLabels).stdout
          ++ (dircon envTree 3 (Proc.init noLabels) (String.toList "/r") true).proc.calls.flatMap
              (fun p => restorecon_stdout envTree p true)
    ∧ (∀ N, Tame envTree N → (Proc.init noLabels).oldpath = none →
        N + 1 ≤ depth (String.toList "/r") + 3 → 1 ≤ 3 →
        ∃ count s1,
          dircon envTree 3 (Proc.init noLabels) (String.toList "/r") true = Run.ret count s1) :=
  ⟨envTree_names, envTree_tame,
    dircon_visits_by_level envTree 3 (Proc.init noLabels) (String.toList "/r") true
      envTree_names rfl rfl⟩


end Offrestorecon
